import Mathlib

/-!
Shallow embedding of the gesture-classification and trigger-arbitration
engine of `virtual_drumkit.py` (TR-808 Finger Drummer).

Modelling conventions:
* Python floats (positions, timestamps, thresholds, cooldowns, volumes)
  are modelled as rationals `ℚ`; the numeric literals are taken verbatim
  from the source.
* The pygame sound handle held in `FingerSound.sound` is modelled as
  `Option Unit`: `some ()` when the sound file was found and loaded,
  `none` otherwise (the dataclass default).
* The MediaPipe hand tracker and all cv2/streamlit rendering are outside
  the model: `process_frame` takes the list of detected hands (wrist y and the
  five fingertip y coordinates, already extracted from the landmark
  array via the `finger_indices` mapping) and the frame timestamp
  (`time.time()` read once per frame) as explicit inputs, and returns the
  updated engine together with the list of per-channel firing decisions
  (`sound.sound.play()` calls) made during the frame.
* The `finger_sounds` dict holds exactly the ten (hand side, finger)
  keys, so it is modelled as a total function on `FingerKey`; the
  membership test `finger_key in self.finger_sounds` is always true.
* The dead fields `pattern_history` / `pattern_window` are never read by
  any decision in the source and are omitted.
-/

inductive Mode
  | TRAINING
  | PRACTICE
  | PERFORMANCE
  | EXPERT
  | CUSTOM
deriving DecidableEq

inductive HandSide
  | LEFT
  | RIGHT
deriving DecidableEq

inductive Finger
  | THUMB
  | INDEX
  | MIDDLE
  | RING
  | PINKY
deriving DecidableEq

abbrev FingerKey := HandSide × Finger

/-- Embedding of the `FingerSound` dataclass, field for field, with the
dataclass defaults (`__post_init__` sets `last_positions = []`). -/
structure FingerSound where
  name : String
  sound_file : String
  sound : Option Unit := none
  last_trigger_time : ℚ := 0.0
  cooldown : ℚ := 0.15
  last_positions : List ℚ := []
  is_moving_down : Bool := false
  volume : ℚ := 0.7
  is_active : Bool := true
  skill_level : ℕ := 1
deriving DecidableEq

/-- Engine state: the mutable attributes of the `VirtualDrumkit` object
(`current_mode`, `skill_level`, `last_hand_trigger_time`, `hand_cooldown`,
`finger_sounds`, `history_size`, and the active `down_threshold` /
`up_threshold` installed by `update_mode_parameters`). -/
structure VirtualDrumkit where
  current_mode : Mode
  skill_level : ℕ
  last_hand_trigger_time : HandSide → ℚ
  hand_cooldown : ℚ
  finger_sounds : FingerKey → FingerSound
  history_size : ℕ
  down_threshold : ℚ
  up_threshold : ℚ

structure ModeParams where
  down_threshold : ℚ
  up_threshold : ℚ
  hand_cooldown : ℚ
deriving DecidableEq

/-- The `self.mode_parameters` table from `__init__`.  It is built once
and never mutated, so it is embedded as a constant lookup; the dict has
no entry for `Mode.CUSTOM`, modelled by `none`. -/
def mode_parameters : Mode → Option ModeParams
  | Mode.TRAINING => some ⟨0.002, 0.001, 0.2⟩
  | Mode.PRACTICE => some ⟨0.0015, 0.001, 0.15⟩
  | Mode.PERFORMANCE => some ⟨0.001, 0.0008, 0.1⟩
  | Mode.EXPERT => some ⟨0.0008, 0.0005, 0.05⟩
  | Mode.CUSTOM => none

/-- `VirtualDrumkit.update_mode_parameters`: when the current mode has an
entry in the table, install its three values; otherwise do nothing. -/
def update_mode_parameters (e : VirtualDrumkit) : VirtualDrumkit :=
  match mode_parameters e.current_mode with
  | some params =>
      { e with
        down_threshold := params.down_threshold
        up_threshold := params.up_threshold
        hand_cooldown := params.hand_cooldown }
  | none => e

/-- The list comprehension
`[positions[i] - positions[i-1] for i in range(1, len(positions))]`
shared by both motion detectors. -/
def motion_deltas (positions : List ℚ) : List ℚ :=
  List.zipWith (fun a b => b - a) positions positions.tail

/-- `VirtualDrumkit.detect_downward_motion`. -/
def detect_downward_motion (e : VirtualDrumkit) (positions : List ℚ) : Bool :=
  if positions.length < 2 then
    false
  else
    decide ((motion_deltas positions).sum / ((motion_deltas positions).length : ℚ)
      > e.down_threshold)

/-- `VirtualDrumkit.detect_upward_motion`. -/
def detect_upward_motion (e : VirtualDrumkit) (positions : List ℚ) : Bool :=
  if positions.length < 2 then
    false
  else
    decide ((motion_deltas positions).sum / ((motion_deltas positions).length : ℚ)
      < -e.up_threshold)

/-- `VirtualDrumkit.can_trigger_sound`.  The `hand_side` parameter is
present in the source signature but unused by the body. -/
def can_trigger_sound (e : VirtualDrumkit) (hand_side : HandSide)
    (sound : FingerSound) (current_time : ℚ) : Bool :=
  if sound.skill_level > e.skill_level then
    false
  else if current_time - sound.last_trigger_time < sound.cooldown then
    false
  else
    true

/-- The history update in `process_frame`:
`sound.last_positions.append(relative_y)` followed by
`if len(...) > self.history_size: sound.last_positions.pop(0)`. -/
def push_positions (history_size : ℕ) (positions : List ℚ) (y : ℚ) : List ℚ :=
  let ps := positions ++ [y]
  if ps.length > history_size then ps.tail else ps

/-- The per-channel body of the inner loop of `process_frame`
(lines 234–258): the skill gate (`continue`), the history push, both
motion detections, the edge-triggered firing decision and the latch
update.  Returns the updated channel and whether its sound was played. -/
def process_channel (e : VirtualDrumkit) (hand_side : HandSide)
    (sound : FingerSound) (relative_y current_time : ℚ) : FingerSound × Bool :=
  if sound.skill_level > e.skill_level then
    (sound, false)
  else
    let ps := push_positions e.history_size sound.last_positions relative_y
    let s := { sound with last_positions := ps }
    let is_moving_down := detect_downward_motion e ps
    let is_moving_up := detect_upward_motion e ps
    if is_moving_down && !s.is_moving_down then
      if can_trigger_sound e hand_side s current_time then
        if s.sound.isSome && s.is_active then
          ({ s with last_trigger_time := current_time, is_moving_down := true }, true)
        else
          ({ s with is_moving_down := true }, false)
      else
        ({ s with is_moving_down := true }, false)
    else if is_moving_up then
      ({ s with is_moving_down := false }, false)
    else
      (s, false)

/-- One detected hand of a landmark frame: the wrist y coordinate
(`hand_landmarks.landmark[0].y`) and the fingertip y coordinate for each
finger (`hand_landmarks.landmark[tip_idx].y`). -/
structure Hand where
  wrist_y : ℚ
  tips : Finger → ℚ

/-- Iteration order of `self.finger_indices.items()`. -/
def finger_indices : List Finger :=
  [Finger.THUMB, Finger.INDEX, Finger.MIDDLE, Finger.RING, Finger.PINKY]

/-- The inner finger loop of `process_frame` for one hand, threading the
channel map and collecting each channel's firing decision. -/
def process_fingers (e : VirtualDrumkit) (hand_side : HandSide) (hand : Hand)
    (current_time : ℚ) (fs : FingerKey → FingerSound) :
    List Finger → (FingerKey → FingerSound) × List (FingerKey × Bool)
  | [] => (fs, [])
  | f :: rest =>
    let key : FingerKey := (hand_side, f)
    let relative_y := hand.tips f - hand.wrist_y
    let r := process_channel e hand_side (fs key) relative_y current_time
    let next := process_fingers e hand_side hand current_time
      (Function.update fs key r.1) rest
    (next.1, (key, r.2) :: next.2)

/-- The outer hand loop of `process_frame`: the hand side is assigned by
detection order (`"LEFT" if hand_idx == 0 else "RIGHT"`). -/
def process_hands (e : VirtualDrumkit) (current_time : ℚ)
    (fs : FingerKey → FingerSound) :
    List (ℕ × Hand) → (FingerKey → FingerSound) × List (FingerKey × Bool)
  | [] => (fs, [])
  | (hand_idx, hand) :: rest =>
    let hand_side := if hand_idx == 0 then HandSide.LEFT else HandSide.RIGHT
    let r := process_fingers e hand_side hand current_time fs finger_indices
    let next := process_hands e current_time r.1 rest
    (next.1, r.2 ++ next.2)

/-- `VirtualDrumkit.process_frame`, restricted to its state and firing
effects (the cv2 drawing calls only read state).  The input is the list
of detected hands and the shared frame timestamp. -/
def process_frame (e : VirtualDrumkit) (hands : List Hand) (current_time : ℚ) :
    VirtualDrumkit × List (FingerKey × Bool) :=
  let r := process_hands e current_time e.finger_sounds hands.enum
  ({ e with finger_sounds := r.1 }, r.2)

/-- Iterated per-channel processing: one `(relative_y, current_time)`
input per frame in which the channel's finger is detected, returning the
final channel state and the number of frames on which the sound fired. -/
def run_channel (e : VirtualDrumkit) (hand_side : HandSide) (sound : FingerSound) :
    List (ℚ × ℚ) → FingerSound × ℕ
  | [] => (sound, 0)
  | (y, t) :: rest =>
    let r := process_channel e hand_side sound y t
    let next := run_channel e hand_side r.1 rest
    (next.1, (if r.2 then 1 else 0) + next.2)

/-- Sustained-Down run condition: at every step of `run_channel`, the
downward-motion detector accepts the freshly pushed history. -/
def all_down (e : VirtualDrumkit) (hand_side : HandSide) (sound : FingerSound) :
    List (ℚ × ℚ) → Bool
  | [] => true
  | (y, t) :: rest =>
    detect_downward_motion e (push_positions e.history_size sound.last_positions y) &&
      all_down e hand_side (process_channel e hand_side sound y t).1 rest

/-- Iterated frame processing: one `(hands, timestamp)` input per
captured video frame. -/
def run_frames (e : VirtualDrumkit) : List (List Hand × ℚ) → VirtualDrumkit
  | [] => e
  | (hands, t) :: rest => run_frames (process_frame e hands t).1 rest

/-- The fixed channel catalog built in `__init__` (names, sound files and
skill requirements; all other fields keep the dataclass defaults). -/
def initial_catalog : FingerKey → FingerSound
  | (HandSide.RIGHT, Finger.INDEX) =>
    { name := "Snare", sound_file := "TR-808 Kit/Snare Mid.wav", skill_level := 1 }
  | (HandSide.RIGHT, Finger.MIDDLE) =>
    { name := "Hi-Hat", sound_file := "TR-808 Kit/Hihat.wav", skill_level := 1 }
  | (HandSide.RIGHT, Finger.THUMB) =>
    { name := "Kick", sound_file := "TR-808 Kit/Kick Basic.wav", skill_level := 1 }
  | (HandSide.RIGHT, Finger.RING) =>
    { name := "Clap", sound_file := "TR-808 Kit/Clap.wav", skill_level := 2 }
  | (HandSide.RIGHT, Finger.PINKY) =>
    { name := "Cymbal", sound_file := "TR-808 Kit/Cymbal.wav", skill_level := 2 }
  | (HandSide.LEFT, Finger.INDEX) =>
    { name := "Tom Mid", sound_file := "TR-808 Kit/Tom Mid.wav", skill_level := 2 }
  | (HandSide.LEFT, Finger.THUMB) =>
    { name := "Tom Low", sound_file := "TR-808 Kit/Tom Low.wav", skill_level := 3 }
  | (HandSide.LEFT, Finger.MIDDLE) =>
    { name := "Tom High", sound_file := "TR-808 Kit/Tom High.wav", skill_level := 3 }
  | (HandSide.LEFT, Finger.RING) =>
    { name := "Cowbell", sound_file := "TR-808 Kit/Cowbell.wav", skill_level := 3 }
  | (HandSide.LEFT, Finger.PINKY) =>
    { name := "Rimshot", sound_file := "TR-808 Kit/Rimshot.wav", skill_level := 3 }

/-- The sound-loading loop of `__init__`: when the file exists the pygame
sound is attached and the Kick/Cymbal volume tweaks applied (the Python
substring test `"Kick" in sound.name` is modelled via `String.splitOn`);
otherwise only a warning is printed and the channel keeps `sound = none`.
Whether a file exists is an input of the model (`file_found`). -/
def load_sound (file_found : String → Bool) (s : FingerSound) : FingerSound :=
  if file_found s.sound_file then
    let s1 := { s with sound := some () }
    if (s1.name.splitOn "Kick").length > 1 then { s1 with volume := 0.8 }
    else if (s1.name.splitOn "Cymbal").length > 1 then { s1 with volume := 0.6 }
    else s1
  else
    s

/-- `VirtualDrumkit.__init__`: Training mode, skill level 1, hand
timestamps zeroed, `hand_cooldown = 0.1`, the fixed catalog, history
bound 4; then `update_mode_parameters()` installs the Training profile,
then the sounds are loaded.  The two threshold attributes are first
created by `update_mode_parameters` in Python, so their pre-update
placeholder value is irrelevant (Training has a table entry). -/
def VirtualDrumkit.init (file_found : String → Bool) : VirtualDrumkit :=
  let e : VirtualDrumkit :=
    { current_mode := Mode.TRAINING
      skill_level := 1
      last_hand_trigger_time := fun _ => 0.0
      hand_cooldown := 0.1
      finger_sounds := initial_catalog
      history_size := 4
      down_threshold := 0.0
      up_threshold := 0.0 }
  let e1 := update_mode_parameters e
  { e1 with finger_sounds := fun k => load_sound file_found (initial_catalog k) }

/-- Concrete engine used by witnesses: the state of a freshly constructed
drumkit (Training profile, skill level 1, all sound files found). -/
def engine_train : VirtualDrumkit :=
  { current_mode := Mode.TRAINING
    skill_level := 1
    last_hand_trigger_time := fun _ => 0.0
    hand_cooldown := 0.2
    finger_sounds := fun k => load_sound (fun _ => true) (initial_catalog k)
    history_size := 4
    down_threshold := 0.002
    up_threshold := 0.001 }

/-- Concrete channel used by witnesses: the Snare channel with its sound
loaded and one position sample already in its history. -/
def snare_channel : FingerSound :=
  { name := "Snare"
    sound_file := "TR-808 Kit/Snare Mid.wav"
    sound := some ()
    last_trigger_time := 0.0
    cooldown := 0.15
    last_positions := [0]
    is_moving_down := false
    volume := 0.7
    is_active := true
    skill_level := 1 }

theorem can_trigger_sound_eq_true (e : VirtualDrumkit) (hs : HandSide)
    (s : FingerSound) (t : ℚ) :
    can_trigger_sound e hs s t = true ↔
      s.skill_level ≤ e.skill_level ∧ s.cooldown ≤ t - s.last_trigger_time := by
  unfold can_trigger_sound
  by_cases h1 : s.skill_level > e.skill_level
  · simp only [if_pos h1, Bool.false_eq_true, false_iff]
    intro hc
    omega
  · by_cases h2 : t - s.last_trigger_time < s.cooldown
    · simp only [if_neg h1, if_pos h2, Bool.false_eq_true, false_iff]
      intro hc
      linarith [hc.2]
    · simp only [if_neg h1, if_neg h2, true_iff]
      exact ⟨by omega, by linarith [not_lt.mp h2]⟩

theorem can_trigger_sound_positions (e : VirtualDrumkit) (hs : HandSide)
    (s : FingerSound) (ps : List ℚ) (t : ℚ) :
    can_trigger_sound e hs { s with last_positions := ps } t =
      can_trigger_sound e hs s t := rfl

theorem process_channel_gated (e : VirtualDrumkit) (hs : HandSide)
    (s : FingerSound) (y t : ℚ) (h : e.skill_level < s.skill_level) :
    process_channel e hs s y t = (s, false) := by
  unfold process_channel
  rw [if_pos h]

theorem detect_down_not_up (e : VirtualDrumkit) (ps : List ℚ)
    (hd0 : 0 ≤ e.down_threshold) (hu0 : 0 ≤ e.up_threshold)
    (h : detect_downward_motion e ps = true) :
    detect_upward_motion e ps = false := by
  unfold detect_downward_motion at h
  unfold detect_upward_motion
  by_cases hlen : ps.length < 2
  · rw [if_pos hlen]
  · rw [if_neg hlen] at h ⊢
    rw [decide_eq_true_eq] at h
    rw [decide_eq_false_iff_not]
    intro hcontra
    linarith

theorem process_channel_down_fire (e : VirtualDrumkit) (hs : HandSide)
    (s : FingerSound) (y t : ℚ)
    (hsk : s.skill_level ≤ e.skill_level) (harm : s.is_moving_down = false)
    (hd : detect_downward_motion e (push_positions e.history_size s.last_positions y) = true)
    (hcan : can_trigger_sound e hs s t = true)
    (hsnd : s.sound.isSome = true) (hact : s.is_active = true) :
    process_channel e hs s y t =
      ({ s with last_positions := push_positions e.history_size s.last_positions y,
                last_trigger_time := t, is_moving_down := true }, true) := by
  obtain ⟨n, sf, snd, ltt, cd, lp, imd, vol, act, sk⟩ := s
  simp only at harm hsnd hact hsk hd hcan ⊢
  subst harm hact
  unfold can_trigger_sound at hcan
  unfold process_channel can_trigger_sound
  simp only at hcan ⊢
  rw [if_neg (not_lt.mpr hsk)]
  simp only [hd, hcan, hsnd, Bool.not_false, Bool.and_true, Bool.and_self, ite_true]

theorem process_channel_down_blocked (e : VirtualDrumkit) (hs : HandSide)
    (s : FingerSound) (y t : ℚ)
    (hsk : s.skill_level ≤ e.skill_level) (harm : s.is_moving_down = false)
    (hd : detect_downward_motion e (push_positions e.history_size s.last_positions y) = true)
    (hblk : (can_trigger_sound e hs s t && (s.sound.isSome && s.is_active)) = false) :
    process_channel e hs s y t =
      ({ s with last_positions := push_positions e.history_size s.last_positions y,
                is_moving_down := true }, false) := by
  obtain ⟨n, sf, snd, ltt, cd, lp, imd, vol, act, sk⟩ := s
  simp only at harm hsk hd hblk ⊢
  subst harm
  unfold can_trigger_sound at hblk
  unfold process_channel can_trigger_sound
  simp only at hblk ⊢
  rw [if_neg (not_lt.mpr hsk)]
  rw [Bool.and_eq_false_iff] at hblk
  simp only [hd, Bool.not_false, Bool.and_true, ite_true]
  rcases hblk with hcan | hsa
  · simp only [hcan, Bool.false_eq_true, ite_false]
  · rw [hsa]
    simp only [Bool.false_eq_true, ite_false, ite_self]

theorem process_channel_latched_stay (e : VirtualDrumkit) (hs : HandSide)
    (s : FingerSound) (y t : ℚ)
    (hsk : s.skill_level ≤ e.skill_level) (hlat : s.is_moving_down = true)
    (hu : detect_upward_motion e (push_positions e.history_size s.last_positions y) = false) :
    process_channel e hs s y t =
      ({ s with last_positions := push_positions e.history_size s.last_positions y }, false) := by
  unfold process_channel
  rw [if_neg (not_lt.mpr hsk)]
  simp only [hlat, hu, Bool.not_true, Bool.and_false, Bool.false_eq_true, if_false,
    ite_false]

theorem process_channel_up (e : VirtualDrumkit) (hs : HandSide)
    (s : FingerSound) (y t : ℚ)
    (hsk : s.skill_level ≤ e.skill_level)
    (hedge : (detect_downward_motion e (push_positions e.history_size s.last_positions y)
        && !s.is_moving_down) = false)
    (hu : detect_upward_motion e (push_positions e.history_size s.last_positions y) = true) :
    process_channel e hs s y t =
      ({ s with last_positions := push_positions e.history_size s.last_positions y,
                is_moving_down := false }, false) := by
  unfold process_channel
  rw [if_neg (not_lt.mpr hsk)]
  simp only [hedge, hu, Bool.false_eq_true, if_false, ite_false, ite_true]

theorem process_channel_down_latches (e : VirtualDrumkit) (hs : HandSide)
    (s : FingerSound) (y t : ℚ)
    (hsk : s.skill_level ≤ e.skill_level) (harm : s.is_moving_down = false)
    (hd : detect_downward_motion e (push_positions e.history_size s.last_positions y) = true) :
    (process_channel e hs s y t).1.is_moving_down = true ∧
      (process_channel e hs s y t).1.skill_level = s.skill_level := by
  by_cases hfire : (can_trigger_sound e hs s t && (s.sound.isSome && s.is_active)) = true
  · rw [Bool.and_eq_true, Bool.and_eq_true] at hfire
    rw [process_channel_down_fire e hs s y t hsk harm hd hfire.1 hfire.2.1 hfire.2.2]
    exact ⟨rfl, rfl⟩
  · rw [Bool.not_eq_true] at hfire
    rw [process_channel_down_blocked e hs s y t hsk harm hd hfire]
    exact ⟨rfl, rfl⟩

theorem run_channel_all_down_le (e : VirtualDrumkit) (hs : HandSide)
    (hd0 : 0 ≤ e.down_threshold) (hu0 : 0 ≤ e.up_threshold) :
    ∀ (l : List (ℚ × ℚ)) (s : FingerSound), all_down e hs s l = true →
      (run_channel e hs s l).2 ≤ (if s.is_moving_down = true then 0 else 1) := by
  intro l
  induction l with
  | nil =>
    intro s _
    simp [run_channel]
  | cons p rest ih =>
    intro s hall
    obtain ⟨y, t⟩ := p
    rw [all_down, Bool.and_eq_true] at hall
    obtain ⟨hdet, hrest⟩ := hall
    by_cases hskill : e.skill_level < s.skill_level
    · have hstep : process_channel e hs s y t = (s, false) :=
        process_channel_gated e hs s y t hskill
      rw [run_channel, hstep]
      simpa using ih s (by rw [hstep] at hrest; exact hrest)
    · push_neg at hskill
      by_cases hlat : s.is_moving_down = true
      · have hup := detect_down_not_up e _ hd0 hu0 hdet
        have hstep := process_channel_latched_stay e hs s y t hskill hlat hup
        rw [run_channel, hstep]
        have hnext := ih _ (by rw [hstep] at hrest; exact hrest)
        simp only [hstep] at hnext ⊢
        simp only [hlat, ite_true] at hnext ⊢
        simpa using hnext
      · rw [Bool.not_eq_true] at hlat
        have hlatch := process_channel_down_latches e hs s y t hskill hlat hdet
        have hnext := ih _ hrest
        rw [hlatch.1] at hnext
        simp only [ite_true] at hnext
        rw [run_channel]
        simp only [hlat, Bool.false_eq_true, ite_false]
        by_cases hr2 : (process_channel e hs s y t).2 = true
        · simp only [hr2, ite_true]
          omega
        · rw [Bool.not_eq_true] at hr2
          simp only [hr2, Bool.false_eq_true, ite_false]
          omega

/-- C1: `can_trigger_sound` returns false when the channel's skill
requirement exceeds the engine's skill level, false when `now` minus the
channel's last-fire timestamp is less than its per-channel cooldown, and
true otherwise; and the result is unchanged under arbitrary modification
of the hand-level cooldown state and of the channel's enabled flag. -/
theorem C1_can_trigger_sound_spec (e : VirtualDrumkit) (hs : HandSide)
    (s : FingerSound) (t : ℚ) :
    (e.skill_level < s.skill_level → can_trigger_sound e hs s t = false) ∧
    (t - s.last_trigger_time < s.cooldown → can_trigger_sound e hs s t = false) ∧
    (s.skill_level ≤ e.skill_level → s.cooldown ≤ t - s.last_trigger_time →
      can_trigger_sound e hs s t = true) ∧
    (∀ (hc : ℚ) (lt : HandSide → ℚ) (b : Bool),
      can_trigger_sound { e with hand_cooldown := hc, last_hand_trigger_time := lt }
        hs { s with is_active := b } t = can_trigger_sound e hs s t) := by
  refine ⟨?_, ?_, ?_, ?_⟩
  · intro h
    unfold can_trigger_sound
    rw [if_pos h]
  · intro h
    unfold can_trigger_sound
    by_cases h1 : s.skill_level > e.skill_level
    · rw [if_pos h1]
    · rw [if_neg h1, if_pos h]
  · intro h1 h2
    unfold can_trigger_sound
    rw [if_neg (not_lt.mpr h1), if_neg (not_lt.mpr h2)]
  · intro hc lt b
    rfl

/-- C1 witness: concrete instances of the three branches (skill gate,
cooldown gate, permitted) on the freshly constructed Training engine. -/
theorem C1_witness :
    can_trigger_sound engine_train HandSide.RIGHT
      { snare_channel with skill_level := 2 } 1 = false ∧
    can_trigger_sound engine_train HandSide.RIGHT snare_channel 0.1 = false ∧
    can_trigger_sound engine_train HandSide.RIGHT snare_channel 1 = true :=
  ⟨(C1_can_trigger_sound_spec engine_train HandSide.RIGHT
      { snare_channel with skill_level := 2 } 1).1
      (by norm_num [engine_train, snare_channel]),
   (C1_can_trigger_sound_spec engine_train HandSide.RIGHT snare_channel 0.1).2.1
      (by norm_num [snare_channel]),
   (C1_can_trigger_sound_spec engine_train HandSide.RIGHT snare_channel 1).2.2.1
      (by norm_num [engine_train, snare_channel])
      (by norm_num [snare_channel])⟩

/-- C2: on a processed frame whose fresh history classifies as Down while
the channel is Armed, the down-latch is set regardless of the outcome of
the firing-permission check; consequently, with the (nonnegative) mode
thresholds, a sustained Down classification over a run of frames with no
intervening Up fires at most once. -/
theorem C2_down_edge_latch :
    (∀ (e : VirtualDrumkit) (hs : HandSide) (s : FingerSound) (y t : ℚ),
      s.skill_level ≤ e.skill_level → s.is_moving_down = false →
      detect_downward_motion e (push_positions e.history_size s.last_positions y) = true →
      (process_channel e hs s y t).1.is_moving_down = true) ∧
    (∀ (e : VirtualDrumkit) (hs : HandSide) (s : FingerSound) (l : List (ℚ × ℚ)),
      0 ≤ e.down_threshold → 0 ≤ e.up_threshold →
      all_down e hs s l = true →
      (run_channel e hs s l).2 ≤ 1) := by
  constructor
  · intro e hs s y t hsk harm hd
    exact (process_channel_down_latches e hs s y t hsk harm hd).1
  · intro e hs s l hd0 hu0 hall
    have h := run_channel_all_down_le e hs hd0 hu0 l s hall
    refine h.trans ?_
    by_cases hlat : s.is_moving_down = true
    · rw [if_pos hlat]
      omega
    · rw [if_neg hlat]

/-- C2 witness: the Snare channel latches on a concrete Down frame, and a
concrete two-frame sustained-Down run fires exactly once (hence at most
once). -/
theorem C2_witness :
    (process_channel engine_train HandSide.RIGHT snare_channel 0.01 1).1.is_moving_down
      = true ∧
    (run_channel engine_train HandSide.RIGHT snare_channel
      [(0.01, 1), (0.02, 2)]).2 ≤ 1 :=
  ⟨C2_down_edge_latch.1 engine_train HandSide.RIGHT snare_channel 0.01 1
      (by norm_num [engine_train, snare_channel])
      (by norm_num [snare_channel])
      (by norm_num [detect_downward_motion, push_positions, motion_deltas,
        engine_train, snare_channel, List.zipWith]),
   C2_down_edge_latch.2 engine_train HandSide.RIGHT snare_channel
      [(0.01, 1), (0.02, 2)]
      (by norm_num [engine_train])
      (by norm_num [engine_train])
      (by norm_num [all_down, process_channel, can_trigger_sound,
        detect_downward_motion, detect_upward_motion, push_positions, motion_deltas,
        engine_train, snare_channel, List.zipWith])⟩

/-- C7: a position history with fewer than two samples classifies as
Neutral: both motion detectors return false. -/
theorem C7_short_history_neutral (e : VirtualDrumkit) (ps : List ℚ)
    (h : ps.length < 2) :
    detect_downward_motion e ps = false ∧ detect_upward_motion e ps = false := by
  unfold detect_downward_motion detect_upward_motion
  rw [if_pos h, if_pos h]
  exact ⟨rfl, rfl⟩

/-- C7 witness: the singleton history on the Training engine. -/
theorem C7_witness :
    detect_downward_motion engine_train [0] = false ∧
    detect_upward_motion engine_train [0] = false :=
  C7_short_history_neutral engine_train [0] (by norm_num)

/-- C8: for a history of at least two samples whose average consecutive
delta is 0.0015, the downward-motion test returns true immediately after
switching the engine to Expert mode (down-threshold 0.0008) and false
immediately after switching it to Training mode (down-threshold 0.002). -/
theorem C8_mode_threshold_selectivity (e : VirtualDrumkit) (ps : List ℚ)
    (hlen : 2 ≤ ps.length)
    (havg : (motion_deltas ps).sum / ((motion_deltas ps).length : ℚ) = 0.0015) :
    detect_downward_motion
      (update_mode_parameters { e with current_mode := Mode.EXPERT }) ps = true ∧
    detect_downward_motion
      (update_mode_parameters { e with current_mode := Mode.TRAINING }) ps = false := by
  have hth1 : (update_mode_parameters
      { e with current_mode := Mode.EXPERT }).down_threshold = 0.0008 := rfl
  have hth2 : (update_mode_parameters
      { e with current_mode := Mode.TRAINING }).down_threshold = 0.002 := rfl
  unfold detect_downward_motion
  rw [if_neg (by omega), if_neg (by omega), hth1, hth2, havg]
  constructor
  · rw [decide_eq_true_eq]
    norm_num
  · rw [decide_eq_false_iff_not]
    norm_num

/-- C8 witness: the history `[0, 0.0015, 0.003]` (average delta 0.0015)
on the freshly constructed engine. -/
theorem C8_witness :
    detect_downward_motion
      (update_mode_parameters { engine_train with current_mode := Mode.EXPERT })
      [0, 0.0015, 0.003] = true ∧
    detect_downward_motion
      (update_mode_parameters { engine_train with current_mode := Mode.TRAINING })
      [0, 0.0015, 0.003] = false :=
  C8_mode_threshold_selectivity engine_train [0, 0.0015, 0.003]
    (by norm_num)
    (by norm_num [motion_deltas, List.zipWith])

/-- C10: on a Down edge where `can_trigger_sound` permits firing but the
channel's sound resource is missing or its enabled flag is off, no sound
plays, the last-fire timestamp is not stamped (the cooldown window is not
consumed), the down-latch is still set, and the channel's future
firing-permission checks are exactly those of its pre-edge state. -/
theorem C10_blocked_fire_keeps_cooldown (e : VirtualDrumkit) (hs : HandSide)
    (s : FingerSound) (y t : ℚ)
    (hsk : s.skill_level ≤ e.skill_level)
    (harm : s.is_moving_down = false)
    (hd : detect_downward_motion e (push_positions e.history_size s.last_positions y) = true)
    (hcan : can_trigger_sound e hs s t = true)
    (hblk : s.sound = none ∨ s.is_active = false) :
    (process_channel e hs s y t).2 = false ∧
    (process_channel e hs s y t).1.last_trigger_time = s.last_trigger_time ∧
    (process_channel e hs s y t).1.is_moving_down = true ∧
    (∀ t2 : ℚ, can_trigger_sound e hs (process_channel e hs s y t).1 t2 =
      can_trigger_sound e hs s t2) := by
  have hblk' : (can_trigger_sound e hs s t && (s.sound.isSome && s.is_active)) = false := by
    rcases hblk with h | h
    · rw [h]
      simp
    · rw [h]
      simp
  rw [process_channel_down_blocked e hs s y t hsk harm hd hblk']
  exact ⟨rfl, rfl, rfl, fun t2 => rfl⟩

/-- C10 witness: the Snare channel with its enabled flag off, on a
concrete permitted Down edge. -/
theorem C10_witness :
    (process_channel engine_train HandSide.RIGHT
      { snare_channel with is_active := false } 0.01 1).2 = false ∧
    (process_channel engine_train HandSide.RIGHT
      { snare_channel with is_active := false } 0.01 1).1.last_trigger_time = 0.0 ∧
    (process_channel engine_train HandSide.RIGHT
      { snare_channel with is_active := false } 0.01 1).1.is_moving_down = true := by
  have h := C10_blocked_fire_keeps_cooldown engine_train HandSide.RIGHT
    { snare_channel with is_active := false } 0.01 1
    (by norm_num [engine_train, snare_channel])
    (by norm_num [snare_channel])
    (by norm_num [detect_downward_motion, push_positions, motion_deltas,
      engine_train, snare_channel, List.zipWith])
    (by norm_num [can_trigger_sound, engine_train, snare_channel])
    (Or.inr (by norm_num [snare_channel]))
  exact ⟨h.1, by simpa [snare_channel] using h.2.1, h.2.2.1⟩

theorem process_channel_neutral (e : VirtualDrumkit) (hs : HandSide)
    (s : FingerSound) (y t : ℚ)
    (hsk : s.skill_level ≤ e.skill_level)
    (hdn : detect_downward_motion e (push_positions e.history_size s.last_positions y) = false)
    (hup : detect_upward_motion e (push_positions e.history_size s.last_positions y) = false) :
    process_channel e hs s y t =
      ({ s with last_positions := push_positions e.history_size s.last_positions y }, false) := by
  unfold process_channel
  rw [if_neg (not_lt.mpr hsk)]
  simp only [hdn, hup, Bool.false_and, Bool.false_eq_true, if_false, ite_false]


/-- Exhaustive case analysis of one per-channel step: either the skill
gate skips the channel, or a permitted Down edge fires (stamping the
timestamp), or the step only pushes the history and possibly moves the
latch, without firing. -/
theorem process_channel_cases (e : VirtualDrumkit) (hs : HandSide)
    (s : FingerSound) (y t : ℚ) :
    process_channel e hs s y t = (s, false) ∨
    (s.is_moving_down = false ∧ can_trigger_sound e hs s t = true ∧
      s.sound.isSome = true ∧ s.is_active = true ∧
      process_channel e hs s y t =
        ({ s with last_positions := push_positions e.history_size s.last_positions y,
                  last_trigger_time := t, is_moving_down := true }, true)) ∨
    (∃ b : Bool, process_channel e hs s y t =
      ({ s with last_positions := push_positions e.history_size s.last_positions y,
                is_moving_down := b }, false)) := by
  simp only [process_channel]
  split
  · exact Or.inl rfl
  · split
    · rename_i hedge
      rw [Bool.and_eq_true, Bool.not_eq_eq_eq_not, Bool.not_true] at hedge
      split
      · rename_i hcan
        rw [can_trigger_sound_positions] at hcan
        split
        · rename_i hsa
          rw [Bool.and_eq_true] at hsa
          exact Or.inr (Or.inl ⟨hedge.2, hcan, hsa.1, hsa.2, rfl⟩)
        · exact Or.inr (Or.inr ⟨true, rfl⟩)
      · exact Or.inr (Or.inr ⟨true, rfl⟩)
    · split
      · exact Or.inr (Or.inr ⟨false, rfl⟩)
      · exact Or.inr (Or.inr ⟨s.is_moving_down, rfl⟩)

theorem process_channel_cooldown_eq (e : VirtualDrumkit) (hs : HandSide)
    (s : FingerSound) (y t : ℚ) :
    (process_channel e hs s y t).1.cooldown = s.cooldown := by
  rcases process_channel_cases e hs s y t with h | ⟨_, _, _, _, h⟩ | ⟨b, h⟩ <;> rw [h]

theorem process_channel_skill_eq (e : VirtualDrumkit) (hs : HandSide)
    (s : FingerSound) (y t : ℚ) :
    (process_channel e hs s y t).1.skill_level = s.skill_level := by
  rcases process_channel_cases e hs s y t with h | ⟨_, _, _, _, h⟩ | ⟨b, h⟩ <;> rw [h]

theorem process_channel_sound_eq (e : VirtualDrumkit) (hs : HandSide)
    (s : FingerSound) (y t : ℚ) :
    (process_channel e hs s y t).1.sound = s.sound := by
  rcases process_channel_cases e hs s y t with h | ⟨_, _, _, _, h⟩ | ⟨b, h⟩ <;> rw [h]

theorem process_channel_active_eq (e : VirtualDrumkit) (hs : HandSide)
    (s : FingerSound) (y t : ℚ) :
    (process_channel e hs s y t).1.is_active = s.is_active := by
  rcases process_channel_cases e hs s y t with h | ⟨_, _, _, _, h⟩ | ⟨b, h⟩ <;> rw [h]

theorem process_channel_latched_not_fired (e : VirtualDrumkit) (hs : HandSide)
    (s : FingerSound) (y t : ℚ) (hlat : s.is_moving_down = true) :
    (process_channel e hs s y t).2 = false := by
  rcases process_channel_cases e hs s y t with h | ⟨harm, _, _, _, h⟩ | ⟨b, h⟩
  · rw [h]
  · rw [harm] at hlat
    exact absurd hlat (by simp)
  · rw [h]

theorem process_channel_not_fired_time_eq (e : VirtualDrumkit) (hs : HandSide)
    (s : FingerSound) (y t : ℚ) (h : (process_channel e hs s y t).2 = false) :
    (process_channel e hs s y t).1.last_trigger_time = s.last_trigger_time := by
  rcases process_channel_cases e hs s y t with hc | ⟨_, _, _, _, hc⟩ | ⟨b, hc⟩
  · rw [hc]
  · rw [hc] at h
    exact absurd h (by simp)
  · rw [hc]

theorem process_channel_fired_time_eq (e : VirtualDrumkit) (hs : HandSide)
    (s : FingerSound) (y t : ℚ) (h : (process_channel e hs s y t).2 = true) :
    (process_channel e hs s y t).1.last_trigger_time = t := by
  rcases process_channel_cases e hs s y t with hc | ⟨_, _, _, _, hc⟩ | ⟨b, hc⟩
  · rw [hc] at h
    exact absurd h (by simp)
  · rw [hc]
  · rw [hc] at h
    exact absurd h (by simp)

theorem process_channel_cannot_not_fired (e : VirtualDrumkit) (hs : HandSide)
    (s : FingerSound) (y t : ℚ)
    (hcan : can_trigger_sound e hs s t = false) :
    (process_channel e hs s y t).2 = false := by
  rcases process_channel_cases e hs s y t with h | ⟨_, hcan2, _, _, h⟩ | ⟨b, h⟩
  · rw [h]
  · rw [hcan2] at hcan
    exact absurd hcan (by simp)
  · rw [h]

theorem process_channel_down_edge_fired (e : VirtualDrumkit) (hs : HandSide)
    (s : FingerSound) (y t : ℚ)
    (hsk : s.skill_level ≤ e.skill_level) (harm : s.is_moving_down = false)
    (hd : detect_downward_motion e (push_positions e.history_size s.last_positions y) = true)
    (hcan : can_trigger_sound e hs s t = true)
    (hsnd : s.sound.isSome = true) (hact : s.is_active = true) :
    (process_channel e hs s y t).2 = true := by
  rw [process_channel_down_fire e hs s y t hsk harm hd hcan hsnd hact]

theorem can_trigger_sound_window_closed (e : VirtualDrumkit) (hs : HandSide)
    (s : FingerSound) (t : ℚ) (h : t - s.last_trigger_time < s.cooldown) :
    can_trigger_sound e hs s t = false := by
  unfold can_trigger_sound
  by_cases h1 : s.skill_level > e.skill_level
  · rw [if_pos h1]
  · rw [if_neg h1, if_pos h]

/-- C3: with the two Down edges of a Down/release/Down frame sequence,
firing happens at most once when the edges are separated by less than the
channel's cooldown, and exactly twice when the first edge was permitted,
the sound is loaded and enabled, and the edges are separated by at least
the cooldown — the intervening release (an Up or Neutral classification
that returns the channel to the Armed state) does not itself fire. -/
theorem C3_cooldown_property (e : VirtualDrumkit) (hs : HandSide) (s : FingerSound)
    (y1 t1 y2 t2 y3 t3 : ℚ)
    (hsk : s.skill_level ≤ e.skill_level)
    (harm : s.is_moving_down = false)
    (hd1 : detect_downward_motion e
      (push_positions e.history_size s.last_positions y1) = true)
    (hrel : detect_upward_motion e (push_positions e.history_size
        (process_channel e hs s y1 t1).1.last_positions y2) = true ∨
      (detect_downward_motion e (push_positions e.history_size
          (process_channel e hs s y1 t1).1.last_positions y2) = false ∧
        detect_upward_motion e (push_positions e.history_size
          (process_channel e hs s y1 t1).1.last_positions y2) = false))
    (harm2 : (process_channel e hs (process_channel e hs s y1 t1).1 y2 t2).1.is_moving_down
      = false)
    (hd3 : detect_downward_motion e (push_positions e.history_size
        (process_channel e hs (process_channel e hs s y1 t1).1 y2 t2).1.last_positions y3)
      = true) :
    (t3 - t1 < s.cooldown →
      (run_channel e hs s [(y1, t1), (y2, t2), (y3, t3)]).2 ≤ 1) ∧
    (s.cooldown ≤ t1 - s.last_trigger_time → s.cooldown ≤ t3 - t1 →
      s.sound.isSome = true → s.is_active = true →
      (run_channel e hs s [(y1, t1), (y2, t2), (y3, t3)]).2 = 2) := by
  have hrc : (run_channel e hs s [(y1, t1), (y2, t2), (y3, t3)]).2 =
      (if (process_channel e hs s y1 t1).2 then 1 else 0) +
      ((if (process_channel e hs (process_channel e hs s y1 t1).1 y2 t2).2
          then 1 else 0) +
       ((if (process_channel e hs
            (process_channel e hs (process_channel e hs s y1 t1).1 y2 t2).1 y3 t3).2
          then 1 else 0) + 0)) := rfl
  obtain ⟨hlat1, hskill1⟩ := process_channel_down_latches e hs s y1 t1 hsk harm hd1
  have hf2 : (process_channel e hs (process_channel e hs s y1 t1).1 y2 t2).2 = false :=
    process_channel_latched_not_fired e hs _ y2 t2 hlat1
  have ht2 : (process_channel e hs (process_channel e hs s y1 t1).1 y2 t2).1.last_trigger_time
      = (process_channel e hs s y1 t1).1.last_trigger_time :=
    process_channel_not_fired_time_eq e hs _ y2 t2 hf2
  have hcd2 : (process_channel e hs (process_channel e hs s y1 t1).1 y2 t2).1.cooldown
      = s.cooldown := by
    rw [process_channel_cooldown_eq, process_channel_cooldown_eq]
  have hsk2 : (process_channel e hs (process_channel e hs s y1 t1).1 y2 t2).1.skill_level
      = s.skill_level := by
    rw [process_channel_skill_eq, process_channel_skill_eq]
  have hsnd2 : (process_channel e hs (process_channel e hs s y1 t1).1 y2 t2).1.sound
      = s.sound := by
    rw [process_channel_sound_eq, process_channel_sound_eq]
  have hact2 : (process_channel e hs (process_channel e hs s y1 t1).1 y2 t2).1.is_active
      = s.is_active := by
    rw [process_channel_active_eq, process_channel_active_eq]
  constructor
  · -- Down edges closer than the cooldown: at most one firing
    intro hlt
    rw [hrc, hf2]
    by_cases hf1 : (process_channel e hs s y1 t1).2 = true
    · have ht1 : (process_channel e hs s y1 t1).1.last_trigger_time = t1 :=
        process_channel_fired_time_eq e hs s y1 t1 hf1
      have hcan3 : can_trigger_sound e hs
          (process_channel e hs (process_channel e hs s y1 t1).1 y2 t2).1 t3 = false := by
        refine can_trigger_sound_window_closed e hs _ t3 ?_
        rw [ht2, ht1, hcd2]
        exact hlt
      have hf3 := process_channel_cannot_not_fired e hs _ y3 t3 hcan3
      rw [hf1, hf3]
      norm_num
    · rw [Bool.not_eq_true] at hf1
      rw [hf1]
      simp only [Bool.false_eq_true, if_false, ite_false, Nat.zero_add, Nat.add_zero]
      split
      · norm_num
      · norm_num
  · -- Down edges at least the cooldown apart, with a release in between:
    -- exactly two firings
    intro hcd1 hcd3 hsnd hact
    have hcan1 : can_trigger_sound e hs s t1 = true :=
      (can_trigger_sound_eq_true e hs s t1).mpr ⟨hsk, hcd1⟩
    have hf1 : (process_channel e hs s y1 t1).2 = true :=
      process_channel_down_edge_fired e hs s y1 t1 hsk harm hd1 hcan1 hsnd hact
    have ht1 : (process_channel e hs s y1 t1).1.last_trigger_time = t1 :=
      process_channel_fired_time_eq e hs s y1 t1 hf1
    have hcan3 : can_trigger_sound e hs
        (process_channel e hs (process_channel e hs s y1 t1).1 y2 t2).1 t3 = true := by
      refine (can_trigger_sound_eq_true e hs _ t3).mpr ⟨?_, ?_⟩
      · rw [hsk2]
        exact hsk
      · rw [ht2, ht1, hcd2]
        exact hcd3
    have hf3 : (process_channel e hs
        (process_channel e hs (process_channel e hs s y1 t1).1 y2 t2).1 y3 t3).2 = true := by
      refine process_channel_down_edge_fired e hs _ y3 t3 ?_ harm2 hd3 hcan3 ?_ ?_
      · rw [hsk2]
        exact hsk
      · rw [hsnd2]
        exact hsnd
      · rw [hact2]
        exact hact
    rw [hrc, hf1, hf2, hf3]
    norm_num

/-- C3 witness: the Snare channel on the Training engine, Down edge at
time 1 (fires), Up release at 1.5, second Down edge at time 2 (at least
the 0.15 cooldown later): exactly two firings. -/
theorem C3_witness :
    (run_channel engine_train HandSide.RIGHT snare_channel
      [(0.01, 1), (-0.1, 1.5), (0.03, 2)]).2 = 2 :=
  (C3_cooldown_property engine_train HandSide.RIGHT snare_channel
    0.01 1 (-0.1) 1.5 0.03 2
    (by norm_num [engine_train, snare_channel])
    (by norm_num [snare_channel])
    (by norm_num [detect_downward_motion, push_positions, motion_deltas,
      engine_train, snare_channel, List.zipWith])
    (Or.inl (by norm_num [detect_upward_motion, detect_downward_motion,
      process_channel, can_trigger_sound, push_positions, motion_deltas,
      engine_train, snare_channel, List.zipWith]))
    (by norm_num [process_channel, can_trigger_sound, detect_downward_motion,
      detect_upward_motion, push_positions, motion_deltas,
      engine_train, snare_channel, List.zipWith])
    (by norm_num [process_channel, can_trigger_sound, detect_downward_motion,
      detect_upward_motion, push_positions, motion_deltas,
      engine_train, snare_channel, List.zipWith])).2
    (by norm_num [snare_channel])
    (by norm_num [snare_channel])
    (by norm_num [snare_channel])
    (by norm_num [snare_channel])

theorem process_channel_hand_fields (e : VirtualDrumkit) (hc : ℚ)
    (lt : HandSide → ℚ) (hs : HandSide) (s : FingerSound) (y t : ℚ) :
    process_channel { e with hand_cooldown := hc, last_hand_trigger_time := lt } hs s y t
      = process_channel e hs s y t := rfl

theorem process_fingers_hand_fields (e : VirtualDrumkit) (hc : ℚ)
    (lt : HandSide → ℚ) (hside : HandSide) (hand : Hand) (t : ℚ) :
    ∀ (l : List Finger) (fs : FingerKey → FingerSound),
      process_fingers { e with hand_cooldown := hc, last_hand_trigger_time := lt }
          hside hand t fs l
        = process_fingers e hside hand t fs l := by
  intro l
  induction l with
  | nil =>
    intro fs
    rfl
  | cons f rest ih =>
    intro fs
    simp only [process_fingers]
    rw [process_channel_hand_fields, ih]

theorem process_hands_hand_fields (e : VirtualDrumkit) (hc : ℚ)
    (lt : HandSide → ℚ) (t : ℚ) :
    ∀ (l : List (ℕ × Hand)) (fs : FingerKey → FingerSound),
      process_hands { e with hand_cooldown := hc, last_hand_trigger_time := lt } t fs l
        = process_hands e t fs l := by
  intro l
  induction l with
  | nil =>
    intro fs
    rfl
  | cons p rest ih =>
    intro fs
    obtain ⟨idx, hand⟩ := p
    simp only [process_hands]
    rw [process_fingers_hand_fields, ih]

/-- C5: frame processing neither reads nor writes the hand-level cooldown
state: two engines differing only in `hand_cooldown` and
`last_hand_trigger_time` produce identical channel updates and identical
firing decisions on any frame, and processing leaves both hand-level
fields exactly as they were. -/
theorem C5_hand_cooldown_no_effect (e : VirtualDrumkit) (hands : List Hand)
    (t hc : ℚ) (lt : HandSide → ℚ) :
    (process_frame { e with hand_cooldown := hc, last_hand_trigger_time := lt }
        hands t).1.finger_sounds = (process_frame e hands t).1.finger_sounds ∧
    (process_frame { e with hand_cooldown := hc, last_hand_trigger_time := lt }
        hands t).2 = (process_frame e hands t).2 ∧
    (process_frame e hands t).1.hand_cooldown = e.hand_cooldown ∧
    (process_frame e hands t).1.last_hand_trigger_time = e.last_hand_trigger_time := by
  refine ⟨?_, ?_, rfl, rfl⟩
  · simp only [process_frame]
    rw [process_hands_hand_fields]
  · simp only [process_frame]
    rw [process_hands_hand_fields]

/-- C6: the profile table has no Custom entry, so selecting Custom mode
and re-applying the mode parameters leaves all three active values
unchanged; selecting any mode that has a table entry (the other four)
replaces all three values with that entry's. -/
theorem C6_custom_mode_keeps_profile (e : VirtualDrumkit) :
    mode_parameters Mode.CUSTOM = none ∧
    (update_mode_parameters { e with current_mode := Mode.CUSTOM }).down_threshold
      = e.down_threshold ∧
    (update_mode_parameters { e with current_mode := Mode.CUSTOM }).up_threshold
      = e.up_threshold ∧
    (update_mode_parameters { e with current_mode := Mode.CUSTOM }).hand_cooldown
      = e.hand_cooldown ∧
    (∀ m : Mode, m ≠ Mode.CUSTOM → (mode_parameters m).isSome = true) ∧
    (∀ (m : Mode) (p : ModeParams), mode_parameters m = some p →
      (update_mode_parameters { e with current_mode := m }).down_threshold
          = p.down_threshold ∧
        (update_mode_parameters { e with current_mode := m }).up_threshold
          = p.up_threshold ∧
        (update_mode_parameters { e with current_mode := m }).hand_cooldown
          = p.hand_cooldown) := by
  refine ⟨rfl, rfl, rfl, rfl, ?_, ?_⟩
  · intro m hm
    cases m <;> simp_all [mode_parameters]
  · intro m p hp
    cases m <;> simp_all [update_mode_parameters, mode_parameters]

/-- C6 witness: after Custom is selected the Training thresholds remain
active, while selecting Expert installs the Expert entry. -/
theorem C6_witness :
    (update_mode_parameters
      { engine_train with current_mode := Mode.CUSTOM }).down_threshold = 0.002 ∧
    (update_mode_parameters
      { engine_train with current_mode := Mode.EXPERT }).down_threshold = 0.0008 := by
  have h := C6_custom_mode_keeps_profile engine_train
  constructor
  · rw [h.2.1]
    norm_num [engine_train]
  · exact (h.2.2.2.2.2 Mode.EXPERT ⟨0.0008, 0.0005, 0.05⟩ rfl).1

theorem load_sound_skill_eq (f : String → Bool) (s : FingerSound) :
    (load_sound f s).skill_level = s.skill_level := by
  simp only [load_sound]
  repeat' split
  all_goals rfl

theorem load_sound_positions_eq (f : String → Bool) (s : FingerSound) :
    (load_sound f s).last_positions = s.last_positions := by
  simp only [load_sound]
  repeat' split
  all_goals rfl

theorem process_fingers_gate (e : VirtualDrumkit) (hside : HandSide) (hand : Hand)
    (t : ℚ) (k : FingerKey) :
    ∀ (l : List Finger) (fs : FingerKey → FingerSound),
      e.skill_level < (fs k).skill_level →
      ((process_fingers e hside hand t fs l).1 k = fs k ∧
        ∀ p ∈ (process_fingers e hside hand t fs l).2, p.1 = k → p.2 = false) := by
  intro l
  induction l with
  | nil =>
    intro fs hk
    exact ⟨rfl, by intro p hp; cases hp⟩
  | cons f rest ih =>
    intro fs hk
    simp only [process_fingers]
    by_cases hkey : (hside, f) = k
    · have hgat : process_channel e hside (fs (hside, f)) (hand.tips f - hand.wrist_y) t
          = (fs (hside, f), false) := by
        refine process_channel_gated e hside _ _ t ?_
        rw [hkey]
        exact hk
      rw [hgat]
      have hupd : Function.update fs (hside, f) (fs (hside, f), false).1 = fs :=
        Function.update_eq_self (hside, f) fs
      rw [hupd]
      refine ⟨(ih fs hk).1, ?_⟩
      intro p hp hpk
      rcases List.mem_cons.mp hp with rfl | hp'
      · rfl
      · exact (ih fs hk).2 p hp' hpk
    · have hne : k ≠ (hside, f) := fun hcontra => hkey hcontra.symm
      have hupd : ∀ v : FingerSound, Function.update fs (hside, f) v k = fs k :=
        fun v => Function.update_noteq hne v fs
      have hk' : e.skill_level <
          ((Function.update fs (hside, f)
            (process_channel e hside (fs (hside, f)) (hand.tips f - hand.wrist_y) t).1) k).skill_level := by
        rw [hupd]
        exact hk
      refine ⟨?_, ?_⟩
      · rw [(ih _ hk').1, hupd]
      · intro p hp hpk
        rcases List.mem_cons.mp hp with rfl | hp'
        · exact absurd hpk hkey
        · exact (ih _ hk').2 p hp' hpk

theorem process_hands_gate (e : VirtualDrumkit) (t : ℚ) (k : FingerKey) :
    ∀ (l : List (ℕ × Hand)) (fs : FingerKey → FingerSound),
      e.skill_level < (fs k).skill_level →
      ((process_hands e t fs l).1 k = fs k ∧
        ∀ p ∈ (process_hands e t fs l).2, p.1 = k → p.2 = false) := by
  intro l
  induction l with
  | nil =>
    intro fs hk
    exact ⟨rfl, by intro p hp; cases hp⟩
  | cons q rest ih =>
    intro fs hk
    obtain ⟨idx, hand⟩ := q
    simp only [process_hands]
    have hfin := process_fingers_gate e
      (if idx == 0 then HandSide.LEFT else HandSide.RIGHT) hand t k finger_indices fs hk
    have hk' : e.skill_level <
        ((process_fingers e (if idx == 0 then HandSide.LEFT else HandSide.RIGHT)
          hand t fs finger_indices).1 k).skill_level := by
      rw [hfin.1]
      exact hk
    refine ⟨?_, ?_⟩
    · rw [(ih _ hk').1, hfin.1]
    · intro p hp hpk
      rcases List.mem_append.mp hp with hp' | hp'
      · exact hfin.2 p hp' hpk
      · exact (ih _ hk').2 p hp' hpk

/-- C4: a channel whose skill requirement exceeds the engine's skill
level is skipped by frame processing: it never fires and its entire
channel record (position history, down-latch flag, last-fire timestamp)
is left unchanged, whatever the landmark data. -/
theorem C4_skill_gate_inert (e : VirtualDrumkit) (hands : List Hand) (t : ℚ)
    (k : FingerKey) (hk : e.skill_level < (e.finger_sounds k).skill_level) :
    (process_frame e hands t).1.finger_sounds k = e.finger_sounds k ∧
    ∀ p ∈ (process_frame e hands t).2, p.1 = k → p.2 = false := by
  simp only [process_frame]
  exact process_hands_gate e t k hands.enum e.finger_sounds hk

/-- C4 witness: on the freshly constructed engine (skill level 1), a
frame with one detected hand (assigned the LEFT side) leaves the
LEFT THUMB channel (Tom Low, skill requirement 3) untouched. -/
theorem C4_witness :
    (process_frame engine_train [⟨0, fun _ => 0⟩] 1).1.finger_sounds
        (HandSide.LEFT, Finger.THUMB)
      = engine_train.finger_sounds (HandSide.LEFT, Finger.THUMB) := by
  have hsk : engine_train.skill_level <
      (engine_train.finger_sounds (HandSide.LEFT, Finger.THUMB)).skill_level := by
    rw [show engine_train.finger_sounds (HandSide.LEFT, Finger.THUMB)
      = load_sound (fun _ => true) (initial_catalog (HandSide.LEFT, Finger.THUMB)) from rfl]
    rw [load_sound_skill_eq]
    norm_num [initial_catalog, engine_train]
  exact (C4_skill_gate_inert engine_train [⟨0, fun _ => 0⟩] 1
    (HandSide.LEFT, Finger.THUMB) hsk).1

theorem push_positions_length_le (n : ℕ) (l : List ℚ) (y : ℚ) (h : l.length ≤ n) :
    (push_positions n l y).length ≤ n := by
  simp only [push_positions]
  split
  · simp only [List.length_tail, List.length_append, List.length_singleton]
    omega
  · rename_i hgt
    simp only [List.length_append, List.length_singleton] at hgt ⊢
    omega

theorem process_channel_length_le (e : VirtualDrumkit) (hs : HandSide)
    (s : FingerSound) (y t : ℚ) (h : s.last_positions.length ≤ e.history_size) :
    (process_channel e hs s y t).1.last_positions.length ≤ e.history_size := by
  rcases process_channel_cases e hs s y t with hc | ⟨_, _, _, _, hc⟩ | ⟨b, hc⟩ <;> rw [hc]
  · exact h
  · exact push_positions_length_le e.history_size s.last_positions y h
  · exact push_positions_length_le e.history_size s.last_positions y h

theorem process_fingers_length_le (e : VirtualDrumkit) (hside : HandSide)
    (hand : Hand) (t : ℚ) :
    ∀ (l : List Finger) (fs : FingerKey → FingerSound),
      (∀ k, (fs k).last_positions.length ≤ e.history_size) →
      ∀ k, ((process_fingers e hside hand t fs l).1 k).last_positions.length
        ≤ e.history_size := by
  intro l
  induction l with
  | nil =>
    intro fs hfs k
    exact hfs k
  | cons f rest ih =>
    intro fs hfs k
    simp only [process_fingers]
    refine ih _ ?_ k
    intro k2
    by_cases hkey : k2 = (hside, f)
    · rw [hkey, Function.update_same]
      exact process_channel_length_le e hside _ _ t (hfs (hside, f))
    · rw [Function.update_noteq hkey]
      exact hfs k2

theorem process_hands_length_le (e : VirtualDrumkit) (t : ℚ) :
    ∀ (l : List (ℕ × Hand)) (fs : FingerKey → FingerSound),
      (∀ k, (fs k).last_positions.length ≤ e.history_size) →
      ∀ k, ((process_hands e t fs l).1 k).last_positions.length ≤ e.history_size := by
  intro l
  induction l with
  | nil =>
    intro fs hfs k
    exact hfs k
  | cons q rest ih =>
    intro fs hfs k
    obtain ⟨idx, hand⟩ := q
    simp only [process_hands]
    exact ih _ (process_fingers_length_le e _ hand t finger_indices fs hfs) k

theorem process_frame_length_le (e : VirtualDrumkit) (hands : List Hand) (t : ℚ)
    (hfs : ∀ k, ((e.finger_sounds k).last_positions.length ≤ e.history_size)) :
    ∀ k, (((process_frame e hands t).1.finger_sounds k).last_positions.length
      ≤ (process_frame e hands t).1.history_size) := by
  intro k
  simp only [process_frame]
  exact process_hands_length_le e t hands.enum e.finger_sounds hfs k

theorem process_frame_history_size (e : VirtualDrumkit) (hands : List Hand) (t : ℚ) :
    (process_frame e hands t).1.history_size = e.history_size := rfl

theorem run_frames_length_le :
    ∀ (frames : List (List Hand × ℚ)) (e : VirtualDrumkit),
      (∀ k, ((e.finger_sounds k).last_positions.length ≤ e.history_size)) →
      (run_frames e frames).history_size = e.history_size ∧
        ∀ k, (((run_frames e frames).finger_sounds k).last_positions.length
          ≤ (run_frames e frames).history_size) := by
  intro frames
  induction frames with
  | nil =>
    intro e hfs
    exact ⟨rfl, hfs⟩
  | cons q rest ih =>
    intro e hfs
    obtain ⟨hands, t⟩ := q
    rw [run_frames]
    obtain ⟨h1, h2⟩ := ih (process_frame e hands t).1
      (by
        intro k
        rw [process_frame_history_size] at *
        exact process_frame_length_le e hands t hfs k)
    refine ⟨?_, h2⟩
    rw [h1, process_frame_history_size]

theorem init_positions_empty (file_found : String → Bool) (k : FingerKey) :
    ((VirtualDrumkit.init file_found).finger_sounds k).last_positions = [] := by
  rw [show (VirtualDrumkit.init file_found).finger_sounds k
    = load_sound file_found (initial_catalog k) from rfl]
  rw [load_sound_positions_eq]
  obtain ⟨a, b⟩ := k
  cases a <;> cases b <;> rfl

/-- C9: starting from the freshly constructed engine, any sequence of
processed frames leaves every channel's position history at no more than
4 samples; and a push against the bound keeps arrival order with the
newest sample last, evicting exactly the oldest sample when the bound
would be exceeded. -/
theorem C9_history_bound (file_found : String → Bool)
    (frames : List (List Hand × ℚ)) (k : FingerKey) :
    ((run_frames (VirtualDrumkit.init file_found) frames).finger_sounds k).last_positions.length
      ≤ 4 ∧
    (∀ (l : List ℚ) (y : ℚ), l.length ≤ 4 →
      push_positions 4 l y = if l.length < 4 then l ++ [y] else l.tail ++ [y]) := by
  constructor
  · obtain ⟨h1, h2⟩ := run_frames_length_le frames (VirtualDrumkit.init file_found)
      (by
        intro k2
        rw [init_positions_empty]
        simp)
    have h3 := h2 k
    rw [h1] at h3
    exact h3
  · intro l y h
    by_cases hlt : l.length < 4
    · have hA : ¬ (l ++ [y]).length > 4 := by
        simp only [List.length_append, List.length_singleton]
        omega
      simp only [push_positions]
      rw [if_neg hA, if_pos hlt]
    · have hlen : l.length = 4 := by omega
      have hA : (l ++ [y]).length > 4 := by
        simp only [List.length_append, List.length_singleton]
        omega
      simp only [push_positions]
      rw [if_pos hA, if_neg hlt]
      cases l with
      | nil => simp at hlen
      | cons a l2 => rfl

/-- C9 witness: the empty frame sequence on the freshly constructed engine keeps
the Snare history within the bound, and a push onto a full four-sample
history evicts the oldest sample and appends the newest last. -/
theorem C9_witness :
    ((run_frames (VirtualDrumkit.init (fun _ => true)) []).finger_sounds
      (HandSide.RIGHT, Finger.INDEX)).last_positions.length ≤ 4 ∧
    push_positions 4 [0, 1, 2, 3] 9 = [1, 2, 3, 9] := by
  have h := C9_history_bound (fun _ => true) [] (HandSide.RIGHT, Finger.INDEX)
  refine ⟨h.1, ?_⟩
  rw [h.2 [0, 1, 2, 3] 9 (by norm_num)]
  norm_num
